import Mathlib

/-!
Verification of the Marvell firmware downloader (src/main.rs).

The development shallowly embeds the protocol core of the program:
the little-endian frame codec (FWHeader, FWData, FWSyncHeader, UsbAckPkt),
the chip revision probe (check_chip_rev), and the block transfer engine
(program_fw) with its outer record loop and inner retry loop.

Machine integers are modelled as Nat; every u32 field read off the wire is
below 2 ^ 32 by construction, and well-formedness predicates record the u32
range where an arbitrary structure value is quantified over.  USB transport
calls are modelled by an oracle: a list of per-attempt outcomes (send
failure, receive failure, or a successful exchange carrying the bytes the
device returned).  The engine additionally returns the trace of bulk-out
buffers it transmitted, so that claims about what is on the wire (sequence
numbers, payload bytes) are stated about observable data.
-/

namespace MarvellFw

/-! ## Protocol constants (src/main.rs lines 11-47) -/

/-- CMD id for CMD7 (line 18). -/
def FW_CMD_7 : Nat := 0x00000007

/-- Firmware has last block (line 47). -/
def FW_HAS_LAST_BLOCK : Nat := 0x00000004

/-- Max firmware retry (line 44). -/
def MAX_FW_RETRY : Nat := 3

/-- Rx buffer size for firmware download (line 42). -/
def FW_DNLD_RX_BUF_SIZE : Nat := 2048

/-- Receive buffer size for chip revision check (line 29). -/
def CHIP_REV_RX_BUF_SIZE : Nat := 2048

/-- Extension header magic high word (line 32). -/
def EXTEND_HDR : Nat := 0xAB95

/-- Extension version low word (line 33). -/
def EXTEND_V1 : Nat := 0x0001

/-- USB8797 A0 chip revision ID (line 36). -/
def USB8797_A0 : Nat := 0x00000000

/-! ## Frame codec

binrw with the little attribute writes each u32 field as four
little-endian bytes, in field declaration order; reading does the inverse
and fails when fewer bytes than the fixed width remain. -/

/-- Little-endian byte encoding of a u32 value. -/
def u32ToLe (x : Nat) : List Nat :=
  [x % 256, x / 256 % 256, x / 65536 % 256, x / 16777216 % 256]

/-- Decode a little-endian u32 from the head of a byte list, returning the
value and the remaining bytes; fails when fewer than 4 bytes remain. -/
def decodeU32 : List Nat → Option (Nat × List Nat)
  | b0 :: b1 :: b2 :: b3 :: rest =>
      some (b0 + 256 * b1 + 65536 * b2 + 16777216 * b3, rest)
  | _ => none

/-- FWHeader (lines 55-67): download command, base address, data length, CRC. -/
structure FWHeader where
  dnld_cmd : Nat
  base_addr : Nat
  data_length : Nat
  crc : Nat
deriving Repr, DecidableEq

/-- All FWHeader fields fit in a u32. -/
def FWHeader.wf (h : FWHeader) : Prop :=
  h.dnld_cmd < 4294967296 ∧ h.base_addr < 4294967296 ∧
    h.data_length < 4294967296 ∧ h.crc < 4294967296

instance (h : FWHeader) : Decidable h.wf := by
  unfold FWHeader.wf; infer_instance

/-- FWData (lines 70-80): header followed by the engine sequence number;
the payload bytes are appended separately after the encoded struct. -/
structure FWData where
  fw_header : FWHeader
  seq_num : Nat
deriving Repr, DecidableEq

/-- All FWData fields fit in a u32. -/
def FWData.wf (d : FWData) : Prop :=
  d.fw_header.wf ∧ d.seq_num < 4294967296

instance (d : FWData) : Decidable d.wf := by
  unfold FWData.wf; infer_instance

/-- FWSyncHeader (lines 82-91): per-block ack with status command and echoed
sequence number. -/
structure FWSyncHeader where
  cmd : Nat
  seq_num : Nat
deriving Repr, DecidableEq

/-- All FWSyncHeader fields fit in a u32. -/
def FWSyncHeader.wf (s : FWSyncHeader) : Prop :=
  s.cmd < 4294967296 ∧ s.seq_num < 4294967296

instance (s : FWSyncHeader) : Decidable s.wf := by
  unfold FWSyncHeader.wf; infer_instance

/-- UsbAckPkt (lines 93-101): chip revision probe response. -/
structure UsbAckPkt where
  ack_winner : Nat
  seq : Nat
  extend : Nat
  chip_rev : Nat
deriving Repr, DecidableEq

/-- All UsbAckPkt fields fit in a u32. -/
def UsbAckPkt.wf (p : UsbAckPkt) : Prop :=
  p.ack_winner < 4294967296 ∧ p.seq < 4294967296 ∧
    p.extend < 4294967296 ∧ p.chip_rev < 4294967296

instance (p : UsbAckPkt) : Decidable p.wf := by
  unfold UsbAckPkt.wf; infer_instance

/-- Encode an FWHeader: four little-endian u32 fields in declaration order. -/
def encodeFWHeader (h : FWHeader) : List Nat :=
  u32ToLe h.dnld_cmd ++ u32ToLe h.base_addr ++ u32ToLe h.data_length ++ u32ToLe h.crc

/-- Encode an FWData: the header followed by the sequence number. -/
def encodeFWData (d : FWData) : List Nat :=
  encodeFWHeader d.fw_header ++ u32ToLe d.seq_num

/-- Encode an FWSyncHeader: status command then sequence number. -/
def encodeFWSyncHeader (s : FWSyncHeader) : List Nat :=
  u32ToLe s.cmd ++ u32ToLe s.seq_num

/-- Encode a UsbAckPkt: four little-endian u32 fields in declaration order. -/
def encodeUsbAckPkt (p : UsbAckPkt) : List Nat :=
  u32ToLe p.ack_winner ++ u32ToLe p.seq ++ u32ToLe p.extend ++ u32ToLe p.chip_rev

/-- Decode an FWHeader (16 bytes) from the head of a byte list. -/
def decodeFWHeader (bs : List Nat) : Option (FWHeader × List Nat) :=
  match decodeU32 bs with
  | none => none
  | some (c, bs1) =>
    match decodeU32 bs1 with
    | none => none
    | some (a, bs2) =>
      match decodeU32 bs2 with
      | none => none
      | some (l, bs3) =>
        match decodeU32 bs3 with
        | none => none
        | some (r, bs4) => some (⟨c, a, l, r⟩, bs4)

/-- Decode an FWData (20 bytes) from the head of a byte list. -/
def decodeFWData (bs : List Nat) : Option (FWData × List Nat) :=
  match decodeFWHeader bs with
  | none => none
  | some (h, bs1) =>
    match decodeU32 bs1 with
    | none => none
    | some (s, bs2) => some (⟨h, s⟩, bs2)

/-- Decode an FWSyncHeader (8 bytes) from the head of a byte list. -/
def decodeFWSyncHeader (bs : List Nat) : Option (FWSyncHeader × List Nat) :=
  match decodeU32 bs with
  | none => none
  | some (c, bs1) =>
    match decodeU32 bs1 with
    | none => none
    | some (s, bs2) => some (⟨c, s⟩, bs2)

/-- Decode a UsbAckPkt (16 bytes) from the head of a byte list. -/
def decodeUsbAckPkt (bs : List Nat) : Option (UsbAckPkt × List Nat) :=
  match decodeU32 bs with
  | none => none
  | some (w, bs1) =>
    match decodeU32 bs1 with
    | none => none
    | some (s, bs2) =>
      match decodeU32 bs2 with
      | none => none
      | some (e, bs3) =>
        match decodeU32 bs3 with
        | none => none
        | some (r, bs4) => some (⟨w, s, e, r⟩, bs4)

/-! ### Codec lemmas -/

theorem decodeU32_append (x : Nat) (rest : List Nat) :
    decodeU32 (u32ToLe x ++ rest) = some (x % 4294967296, rest) := by
  have h : x % 256 + 256 * (x / 256 % 256) + 65536 * (x / 65536 % 256) +
      16777216 * (x / 16777216 % 256) = x % 4294967296 := by omega
  simp only [u32ToLe, List.cons_append, List.nil_append, decodeU32, h]

theorem decodeU32_length {bs : List Nat} {v : Nat} {tl : List Nat}
    (h : decodeU32 bs = some (v, tl)) : bs.length = tl.length + 4 := by
  unfold decodeU32 at h
  split at h
  · simp only [Option.some.injEq, Prod.mk.injEq] at h
    obtain ⟨-, rfl⟩ := h
    simp
  · exact absurd h (by simp)

theorem decodeU32_total {bs : List Nat} (h : 4 ≤ bs.length) :
    ∃ v tl, decodeU32 bs = some (v, tl) ∧ bs.length = tl.length + 4 := by
  match bs with
  | b0 :: b1 :: b2 :: b3 :: tl => exact ⟨_, tl, rfl, by simp⟩
  | [] => simp at h
  | [b0] => simp at h
  | [b0, b1] => simp at h
  | [b0, b1, b2] => simp at h

theorem encodeFWHeader_decode (h : FWHeader) (rest : List Nat) (hw : h.wf) :
    decodeFWHeader (encodeFWHeader h ++ rest) = some (h, rest) := by
  obtain ⟨c, a, l, r⟩ := h
  obtain ⟨h1, h2, h3, h4⟩ := hw
  simp only [encodeFWHeader, decodeFWHeader, List.append_assoc, decodeU32_append,
    Nat.mod_eq_of_lt h1, Nat.mod_eq_of_lt h2, Nat.mod_eq_of_lt h3, Nat.mod_eq_of_lt h4]

theorem encodeFWData_decode (d : FWData) (rest : List Nat) (hw : d.wf) :
    decodeFWData (encodeFWData d ++ rest) = some (d, rest) := by
  obtain ⟨h, s⟩ := d
  obtain ⟨h1, h2⟩ := hw
  simp only [encodeFWData, decodeFWData, List.append_assoc,
    encodeFWHeader_decode h _ h1, decodeU32_append, Nat.mod_eq_of_lt h2]

theorem encodeFWSyncHeader_decode (s : FWSyncHeader) (rest : List Nat) (hw : s.wf) :
    decodeFWSyncHeader (encodeFWSyncHeader s ++ rest) = some (s, rest) := by
  obtain ⟨c, q⟩ := s
  obtain ⟨h1, h2⟩ := hw
  simp only [encodeFWSyncHeader, decodeFWSyncHeader, List.append_assoc, decodeU32_append,
    Nat.mod_eq_of_lt h1, Nat.mod_eq_of_lt h2]

theorem encodeUsbAckPkt_decode (p : UsbAckPkt) (rest : List Nat) (hw : p.wf) :
    decodeUsbAckPkt (encodeUsbAckPkt p ++ rest) = some (p, rest) := by
  obtain ⟨w, s, e, r⟩ := p
  obtain ⟨h1, h2, h3, h4⟩ := hw
  simp only [encodeUsbAckPkt, decodeUsbAckPkt, List.append_assoc, decodeU32_append,
    Nat.mod_eq_of_lt h1, Nat.mod_eq_of_lt h2, Nat.mod_eq_of_lt h3, Nat.mod_eq_of_lt h4]

theorem decodeFWHeader_length {bs : List Nat} {fh : FWHeader} {tl : List Nat}
    (hd : decodeFWHeader bs = some (fh, tl)) : bs.length = tl.length + 16 := by
  unfold decodeFWHeader at hd
  cases e1 : decodeU32 bs with
  | none => rw [e1] at hd; exact absurd hd (by simp)
  | some p1 =>
    rw [e1] at hd
    obtain ⟨c, bs1⟩ := p1
    dsimp only at hd
    cases e2 : decodeU32 bs1 with
    | none => rw [e2] at hd; exact absurd hd (by simp)
    | some p2 =>
      rw [e2] at hd
      obtain ⟨a, bs2⟩ := p2
      dsimp only at hd
      cases e3 : decodeU32 bs2 with
      | none => rw [e3] at hd; exact absurd hd (by simp)
      | some p3 =>
        rw [e3] at hd
        obtain ⟨l, bs3⟩ := p3
        dsimp only at hd
        cases e4 : decodeU32 bs3 with
        | none => rw [e4] at hd; exact absurd hd (by simp)
        | some p4 =>
          rw [e4] at hd
          obtain ⟨r, bs4⟩ := p4
          dsimp only at hd
          simp only [Option.some.injEq, Prod.mk.injEq] at hd
          obtain ⟨-, rfl⟩ := hd
          have l1 := decodeU32_length e1
          have l2 := decodeU32_length e2
          have l3 := decodeU32_length e3
          have l4 := decodeU32_length e4
          omega

theorem decodeFWSyncHeader_total {bs : List Nat} (h : 8 ≤ bs.length) :
    ∃ s tl, decodeFWSyncHeader bs = some (s, tl) := by
  obtain ⟨c, bs1, hc, hl1⟩ := @decodeU32_total bs (by omega)
  obtain ⟨q, bs2, hq, hl2⟩ := @decodeU32_total bs1 (by omega)
  exact ⟨⟨c, q⟩, bs2, by simp [decodeFWSyncHeader, hc, hq]⟩

theorem decodeUsbAckPkt_total {bs : List Nat} (h : 16 ≤ bs.length) :
    ∃ p tl, decodeUsbAckPkt bs = some (p, tl) := by
  obtain ⟨w, bs1, hw, hl1⟩ := @decodeU32_total bs (by omega)
  obtain ⟨s, bs2, hs, hl2⟩ := @decodeU32_total bs1 (by omega)
  obtain ⟨e, bs3, he, hl3⟩ := @decodeU32_total bs2 (by omega)
  obtain ⟨r, bs4, hr, hl4⟩ := @decodeU32_total bs3 (by omega)
  exact ⟨⟨w, s, e, r⟩, bs4, by simp [decodeUsbAckPkt, hw, hs, he, hr]⟩

theorem encodeFWData_length (d : FWData) : (encodeFWData d).length = 20 := by
  simp [encodeFWData, encodeFWHeader, u32ToLe]

/-! ## Transport model

A bulk-in receive buffer is zero-initialized at its full size; a successful
read overwrites a prefix with the bytes the device returned and the code
then decodes from the whole buffer, ignoring the returned byte count
(lines 173-182 and 209-213). -/

/-- The n-byte receive buffer after a successful read that returned bs. -/
def recvBuffer (n : Nat) (bs : List Nat) : List Nat :=
  (bs ++ List.replicate n 0).take n

theorem recvBuffer_length (n : Nat) (bs : List Nat) : (recvBuffer n bs).length = n := by
  simp [recvBuffer]

/-- Outcomes the transfer can fail with. -/
inductive FwError where
  /-- The image ended before a full header or its declared payload. -/
  | truncatedImage
  /-- A wire decode saw fewer bytes than the fixed struct width. -/
  | truncatedFrame
  /-- The ack carried a positive status command (device-side CRC error). -/
  | deviceCrc
  /-- The ack echoed a sequence number different from the one sent. -/
  | seqMismatch (got expected : Nat)
  /-- The per-block transport retry budget ran out. -/
  | exhaustedRetries
  /-- An unretried transport failure in the chip revision probe. -/
  | transport
  /-- Model artifact: the transport oracle ran out of outcomes. -/
  | outOfEvents
deriving Repr, DecidableEq

/-- One attempted send/receive exchange as seen by the engine: the bulk-out
write failed, the bulk-in read failed, or both succeeded and the read
returned the given bytes. -/
inductive XferResult where
  | sendFail
  | recvFail
  | ack (bytes : List Nat)
deriving Repr, DecidableEq

/-- A transport failure outcome (either direction). -/
def XferResult.isFail : XferResult → Bool
  | .sendFail => true
  | .recvFail => true
  | .ack _ => false

/-- Result of the inner retry loop for one block. -/
inductive InnerResult where
  /-- The block was acked and its command equalled FW_HAS_LAST_BLOCK. -/
  | done
  /-- A fatal protocol error aborted the transfer. -/
  | fatal (e : FwError)
  /-- The block was acked (non-final); carries the unconsumed oracle. -/
  | brk (events : List XferResult)
  /-- The retry budget reached zero; carries the unconsumed oracle. -/
  | exhausted (events : List XferResult)
deriving Repr, DecidableEq

/-- Inner retry loop of program_fw (lines 155-199).  One oracle outcome is
consumed per attempt; every attempt transmits the encoded header plus the
engine sequence number followed by the payload bytes (lines 157-164), and
the transmitted buffers are returned as a trace.  A transport failure in
either direction decrements the budget and retries the same block
(lines 165-180); a decoded ack is classified as in lines 185-198. -/
def innerLoop (hdr : FWHeader) (payload : List Nat) (seq_num : Nat) :
    Nat → List XferResult → InnerResult × List (List Nat)
  | retries, events =>
    if retries = 0 then (InnerResult.exhausted events, [])
    else
      match events with
      | [] => (InnerResult.fatal FwError.outOfEvents, [])
      | e :: rest =>
        let send_buffer := encodeFWData ⟨hdr, seq_num⟩ ++ payload
        match e with
        | XferResult.sendFail =>
          let p := innerLoop hdr payload seq_num (retries - 1) rest
          (p.1, send_buffer :: p.2)
        | XferResult.recvFail =>
          let p := innerLoop hdr payload seq_num (retries - 1) rest
          (p.1, send_buffer :: p.2)
        | XferResult.ack bs =>
          match decodeFWSyncHeader (recvBuffer FW_DNLD_RX_BUF_SIZE bs) with
          | none => (InnerResult.fatal FwError.truncatedFrame, [send_buffer])
          | some (sync, _) =>
            if 0 < sync.cmd then
              (InnerResult.fatal FwError.deviceCrc, [send_buffer])
            else if sync.seq_num ≠ seq_num then
              (InnerResult.fatal (FwError.seqMismatch sync.seq_num seq_num), [send_buffer])
            else if hdr.dnld_cmd = FW_HAS_LAST_BLOCK then
              (InnerResult.done, [send_buffer])
            else
              (InnerResult.brk rest, [send_buffer])

/-- Effective payload length of a record (lines 140-145): the header's
data_length, except that CMD7 records carry no data. -/
def effectiveDataLen (h : FWHeader) : Nat :=
  if h.dnld_cmd = FW_CMD_7 then 0 else h.data_length

/-- read_exact over the image cursor (line 147): take exactly n bytes,
failing when fewer remain. -/
def readExactList (n : Nat) (bs : List Nat) : Option (List Nat × List Nat) :=
  if n ≤ bs.length then some (bs.take n, bs.drop n) else none

theorem readExactList_length {n : Nat} {bs data rest : List Nat}
    (h : readExactList n bs = some (data, rest)) : rest.length ≤ bs.length := by
  unfold readExactList at h
  split at h
  · simp only [Option.some.injEq, Prod.mk.injEq] at h
    obtain ⟨-, rfl⟩ := h
    simp
  · exact absurd h (by simp)

/-- Outer record loop of program_fw (lines 137-203).  While the budget is
positive: decode the next header (line 138), compute the effective payload
length and read the payload (lines 140-147), then run the inner retry loop
for the block.  An accepted final block returns success; a fatal ack
classification aborts with its error; a drained budget leaves both loops
and ends in the closing failure of line 203; an accepted non-final block
resets the budget to MAX_FW_RETRY and advances the sequence number by one
(lines 196-200).  The trace of transmitted bulk-out buffers is returned
alongside the result. -/
def outerLoop (fw : List Nat) (seq_num retries : Nat) (events : List XferResult) :
    Except FwError Unit × List (List Nat) :=
  if retries = 0 then (Except.error FwError.exhaustedRetries, [])
  else
    match h1 : decodeFWHeader fw with
    | none => (Except.error FwError.truncatedImage, [])
    | some (fw_header, rest) =>
      match h2 : readExactList (effectiveDataLen fw_header) rest with
      | none => (Except.error FwError.truncatedImage, [])
      | some (data_buf, rest2) =>
        match innerLoop fw_header data_buf seq_num retries events with
        | (InnerResult.done, t) => (Except.ok (), t)
        | (InnerResult.fatal e, t) => (Except.error e, t)
        | (InnerResult.exhausted _, t) => (Except.error FwError.exhaustedRetries, t)
        | (InnerResult.brk events2, t) =>
          let p := outerLoop rest2 (seq_num + 1) MAX_FW_RETRY events2
          (p.1, t ++ p.2)
termination_by fw.length
decreasing_by
  have l1 := decodeFWHeader_length h1
  have l2 := readExactList_length h2
  omega

/-- program_fw (lines 130-204): the transfer engine, starting with sequence
number 0 and a full retry budget. -/
def program_fw (fw : List Nat) (events : List XferResult) : Except FwError Unit :=
  (outerLoop fw 0 MAX_FW_RETRY events).1

/-- The trace of bulk-out buffers program_fw transmits. -/
def sentBuffers (fw : List Nat) (events : List XferResult) : List (List Nat) :=
  (outerLoop fw 0 MAX_FW_RETRY events).2

/-! ## Chip revision probe -/

/-- The expected extend magic (line 207). -/
def expected_extend : Nat := (EXTEND_HDR <<< 16) ||| EXTEND_V1

/-- The chip revision the probe logs (lines 216-220): the response's
chip_rev when the extend magic matches, the USB8797_A0 default otherwise. -/
def reportedChipRev (pkt : UsbAckPkt) : Nat :=
  if pkt.extend = expected_extend then pkt.chip_rev else USB8797_A0

/-- check_chip_rev (lines 206-223).  writeOk tells whether the bulk-out
write of the zero-filled probe succeeded; readResult is none when the
bulk-in read failed and otherwise carries the returned bytes.  Transport
failures propagate (the question-mark operator on lines 210-211); a decoded
response always yields Ok, carrying the logged revision as the value. -/
def check_chip_rev (writeOk : Bool) (readResult : Option (List Nat)) :
    Except FwError Nat :=
  if writeOk then
    match readResult with
    | none => Except.error FwError.transport
    | some bs =>
      match decodeUsbAckPkt (recvBuffer CHIP_REV_RX_BUF_SIZE bs) with
      | none => Except.error FwError.truncatedFrame
      | some (pkt, _) => Except.ok (reportedChipRev pkt)
  else Except.error FwError.transport

/-- download_fw, protocol part (lines 237-238): run the probe, propagating
its error (the question-mark operator), then the transfer.  File reading
and USB interface management are external collaborators and elided. -/
def download_fw (probeWrite : Bool) (probeRead : Option (List Nat))
    (fw : List Nat) (events : List XferResult) : Except FwError Unit :=
  match check_chip_rev probeWrite probeRead with
  | Except.error e => Except.error e
  | Except.ok _ => program_fw fw events

/-! ## Receive buffer decode lemmas -/

theorem replicate_decodeU32 (n : Nat) :
    decodeU32 (List.replicate (n + 4) 0) = some (0, List.replicate n 0) := by
  rw [List.replicate_succ, List.replicate_succ, List.replicate_succ, List.replicate_succ]
  simp [decodeU32]

theorem recvBuffer_nil (n : Nat) : recvBuffer n [] = List.replicate n 0 := by
  simp [recvBuffer]

theorem recvBuffer_eq_append {n : Nat} {bs : List Nat} (h : bs.length ≤ n) :
    recvBuffer n bs = bs ++ List.replicate (n - bs.length) 0 := by
  rw [recvBuffer, List.take_append_eq_append_take, List.take_of_length_le h,
    List.take_replicate, Nat.min_eq_left (Nat.sub_le n bs.length)]

theorem encodeFWSyncHeader_length (s : FWSyncHeader) :
    (encodeFWSyncHeader s).length = 8 := by
  simp [encodeFWSyncHeader, u32ToLe]

theorem encodeUsbAckPkt_length (p : UsbAckPkt) :
    (encodeUsbAckPkt p).length = 16 := by
  simp [encodeUsbAckPkt, u32ToLe]

/-- A successful bulk-in read that returned no bytes leaves the zero-filled
buffer untouched, and decoding it yields the all-zero sync header. -/
theorem decodeSync_recvZero :
    decodeFWSyncHeader (recvBuffer FW_DNLD_RX_BUF_SIZE []) =
      some (⟨0, 0⟩, List.replicate 2040 0) := by
  rw [recvBuffer_nil]
  unfold decodeFWSyncHeader
  rw [show (FW_DNLD_RX_BUF_SIZE : Nat) = 2044 + 4 from rfl, replicate_decodeU32]
  dsimp only
  rw [show (2044 : Nat) = 2040 + 4 from rfl, replicate_decodeU32]

/-- Decoding the receive buffer after the device returned an encoded sync
header yields that sync header. -/
theorem decodeSync_recv (s : FWSyncHeader) (hw : s.wf) :
    decodeFWSyncHeader (recvBuffer FW_DNLD_RX_BUF_SIZE (encodeFWSyncHeader s)) =
      some (s, List.replicate 2040 0) := by
  rw [recvBuffer_eq_append (by rw [encodeFWSyncHeader_length]; decide),
    encodeFWSyncHeader_length, encodeFWSyncHeader_decode s _ hw]
  rfl

/-- Decoding the probe receive buffer after the device returned an encoded
ack packet yields that packet. -/
theorem decodeAck_recv (p : UsbAckPkt) (hw : p.wf) :
    decodeUsbAckPkt (recvBuffer CHIP_REV_RX_BUF_SIZE (encodeUsbAckPkt p)) =
      some (p, List.replicate 2032 0) := by
  rw [recvBuffer_eq_append (by rw [encodeUsbAckPkt_length]; decide),
    encodeUsbAckPkt_length, encodeUsbAckPkt_decode p _ hw]
  rfl

/-! ## Inner loop lemmas -/

/-- A transport failure in either direction transmits the block, decrements
the budget by one, and retries the very same block: same header, same
sequence number, same payload. -/
theorem innerLoop_fail_step (hdr : FWHeader) (payload : List Nat) (seq r : Nat)
    (e : XferResult) (events : List XferResult) (he : e.isFail = true) :
    innerLoop hdr payload seq (r + 1) (e :: events) =
      ((innerLoop hdr payload seq r events).1,
        (encodeFWData ⟨hdr, seq⟩ ++ payload) :: (innerLoop hdr payload seq r events).2) := by
  cases e with
  | sendFail => simp [innerLoop]
  | recvFail => simp [innerLoop]
  | ack bs => simp [XferResult.isFail] at he

/-- With budget remaining, a successful exchange decodes the receive buffer
and classifies the ack exactly as lines 185-198 do. -/
theorem innerLoop_ack (hdr : FWHeader) (payload : List Nat) (seq r : Nat) (hr : r ≠ 0)
    (bs : List Nat) (events : List XferResult) (sync : FWSyncHeader) (tl : List Nat)
    (hdec : decodeFWSyncHeader (recvBuffer FW_DNLD_RX_BUF_SIZE bs) = some (sync, tl)) :
    innerLoop hdr payload seq r (XferResult.ack bs :: events) =
      (if 0 < sync.cmd then
        (InnerResult.fatal FwError.deviceCrc, [encodeFWData ⟨hdr, seq⟩ ++ payload])
      else if sync.seq_num ≠ seq then
        (InnerResult.fatal (FwError.seqMismatch sync.seq_num seq),
          [encodeFWData ⟨hdr, seq⟩ ++ payload])
      else if hdr.dnld_cmd = FW_HAS_LAST_BLOCK then
        (InnerResult.done, [encodeFWData ⟨hdr, seq⟩ ++ payload])
      else (InnerResult.brk events, [encodeFWData ⟨hdr, seq⟩ ++ payload])) := by
  obtain ⟨r0, rfl⟩ : ∃ r0, r = r0 + 1 := ⟨r - 1, by omega⟩
  rw [innerLoop]
  simp only [Nat.succ_ne_zero, if_false, hdec]

/-- Every buffer the inner loop transmits for a block is the encoded header
with that block's sequence number followed by that block's payload. -/
theorem innerLoop_sent (hdr : FWHeader) (payload : List Nat) (seq : Nat) :
    ∀ (events : List XferResult) (r : Nat) (b : List Nat),
      b ∈ (innerLoop hdr payload seq r events).2 →
      b = encodeFWData ⟨hdr, seq⟩ ++ payload := by
  intro events
  induction events with
  | nil =>
    intro r b hb
    rcases r with _ | r0 <;> simp [innerLoop] at hb
  | cons e rest ih =>
    intro r b hb
    rcases r with _ | r0
    · simp [innerLoop] at hb
    · cases e with
      | sendFail =>
        rw [innerLoop_fail_step hdr payload seq r0 XferResult.sendFail rest rfl] at hb
        simp only [List.mem_cons] at hb
        rcases hb with rfl | hb
        · rfl
        · exact ih r0 b hb
      | recvFail =>
        rw [innerLoop_fail_step hdr payload seq r0 XferResult.recvFail rest rfl] at hb
        simp only [List.mem_cons] at hb
        rcases hb with rfl | hb
        · rfl
        · exact ih r0 b hb
      | ack bs =>
        rw [innerLoop, if_neg (Nat.succ_ne_zero r0)] at hb
        dsimp only at hb
        rcases hdec : decodeFWSyncHeader (recvBuffer FW_DNLD_RX_BUF_SIZE bs) with _ | ⟨sync, tl⟩ <;>
          rw [hdec] at hb <;> dsimp only at hb
        · simpa using hb
        · simp only [apply_ite Prod.snd, ite_self, List.mem_singleton] at hb
          exact hb

/-! ## Outer loop lemmas -/

/-- A header that cannot be fully decoded fails the transfer at once, with
nothing transmitted. -/
theorem outerLoop_header_none (fw : List Nat) (seq r : Nat) (events : List XferResult)
    (hr : r ≠ 0) (hh : decodeFWHeader fw = none) :
    outerLoop fw seq r events = (Except.error FwError.truncatedImage, []) := by
  conv_lhs => unfold outerLoop
  rw [if_neg hr]
  split
  · rfl
  · rename_i hdr rest heq
    simp [hh] at heq

/-- A payload that cannot be fully read fails the transfer at once, with
nothing transmitted. -/
theorem outerLoop_payload_none (fw : List Nat) (seq r : Nat) (events : List XferResult)
    (hdr : FWHeader) (rest : List Nat) (hr : r ≠ 0)
    (hh : decodeFWHeader fw = some (hdr, rest))
    (hp : readExactList (effectiveDataLen hdr) rest = none) :
    outerLoop fw seq r events = (Except.error FwError.truncatedImage, []) := by
  conv_lhs => unfold outerLoop
  rw [if_neg hr]
  split
  · rename_i heq
    simp [hh] at heq
  · rename_i hdr1 rest1 heq
    rw [hh] at heq
    simp only [Option.some.injEq, Prod.mk.injEq] at heq
    obtain ⟨rfl, rfl⟩ := heq
    split
    · rfl
    · rename_i data1 rest21 heq2
      simp [hp] at heq2

/-- One unfolding of the outer loop when the record reads succeed. -/
theorem outerLoop_step (fw : List Nat) (seq r : Nat) (events : List XferResult)
    (hdr : FWHeader) (rest data_buf rest2 : List Nat) (hr : r ≠ 0)
    (hh : decodeFWHeader fw = some (hdr, rest))
    (hp : readExactList (effectiveDataLen hdr) rest = some (data_buf, rest2)) :
    outerLoop fw seq r events =
      match innerLoop hdr data_buf seq r events with
      | (InnerResult.done, t) => (Except.ok (), t)
      | (InnerResult.fatal e, t) => (Except.error e, t)
      | (InnerResult.exhausted _, t) => (Except.error FwError.exhaustedRetries, t)
      | (InnerResult.brk events2, t) =>
        let p := outerLoop rest2 (seq + 1) MAX_FW_RETRY events2
        (p.1, t ++ p.2) := by
  conv_lhs => unfold outerLoop
  rw [if_neg hr]
  split
  · rename_i heq
    simp [hh] at heq
  · rename_i hdr1 rest1 heq
    rw [hh] at heq
    simp only [Option.some.injEq, Prod.mk.injEq] at heq
    obtain ⟨rfl, rfl⟩ := heq
    split
    · rename_i heq2
      simp [hp] at heq2
    · rename_i data1 rest21 heq2
      rw [hp] at heq2
      simp only [Option.some.injEq, Prod.mk.injEq] at heq2
      obtain ⟨rfl, rfl⟩ := heq2
      rfl

theorem outerLoop_inner_done (fw : List Nat) (seq r : Nat) (events : List XferResult)
    (hdr : FWHeader) (rest data_buf rest2 : List Nat) (t : List (List Nat)) (hr : r ≠ 0)
    (hh : decodeFWHeader fw = some (hdr, rest))
    (hp : readExactList (effectiveDataLen hdr) rest = some (data_buf, rest2))
    (hi : innerLoop hdr data_buf seq r events = (InnerResult.done, t)) :
    outerLoop fw seq r events = (Except.ok (), t) := by
  rw [outerLoop_step fw seq r events hdr rest data_buf rest2 hr hh hp, hi]

theorem outerLoop_inner_fatal (fw : List Nat) (seq r : Nat) (events : List XferResult)
    (hdr : FWHeader) (rest data_buf rest2 : List Nat) (e : FwError) (t : List (List Nat))
    (hr : r ≠ 0)
    (hh : decodeFWHeader fw = some (hdr, rest))
    (hp : readExactList (effectiveDataLen hdr) rest = some (data_buf, rest2))
    (hi : innerLoop hdr data_buf seq r events = (InnerResult.fatal e, t)) :
    outerLoop fw seq r events = (Except.error e, t) := by
  rw [outerLoop_step fw seq r events hdr rest data_buf rest2 hr hh hp, hi]

theorem outerLoop_inner_exhausted (fw : List Nat) (seq r : Nat) (events : List XferResult)
    (hdr : FWHeader) (rest data_buf rest2 : List Nat) (events2 : List XferResult)
    (t : List (List Nat)) (hr : r ≠ 0)
    (hh : decodeFWHeader fw = some (hdr, rest))
    (hp : readExactList (effectiveDataLen hdr) rest = some (data_buf, rest2))
    (hi : innerLoop hdr data_buf seq r events = (InnerResult.exhausted events2, t)) :
    outerLoop fw seq r events = (Except.error FwError.exhaustedRetries, t) := by
  rw [outerLoop_step fw seq r events hdr rest data_buf rest2 hr hh hp, hi]

theorem outerLoop_inner_brk (fw : List Nat) (seq r : Nat) (events : List XferResult)
    (hdr : FWHeader) (rest data_buf rest2 : List Nat) (events2 : List XferResult)
    (t : List (List Nat)) (hr : r ≠ 0)
    (hh : decodeFWHeader fw = some (hdr, rest))
    (hp : readExactList (effectiveDataLen hdr) rest = some (data_buf, rest2))
    (hi : innerLoop hdr data_buf seq r events = (InnerResult.brk events2, t)) :
    outerLoop fw seq r events =
      ((outerLoop rest2 (seq + 1) MAX_FW_RETRY events2).1,
        t ++ (outerLoop rest2 (seq + 1) MAX_FW_RETRY events2).2) := by
  rw [outerLoop_step fw seq r events hdr rest data_buf rest2 hr hh hp, hi]

/-! ## Claims -/

/-- Claim C1: once a block's ack is accepted (status command 0 and echoed
sequence equal to the engine's), the inner loop finishes with done exactly
when the header's download command equals the FW_HAS_LAST_BLOCK sentinel
0x00000004 - an exact equality test, so any other command value, bit 2 set
or not, continues with the next record instead - and a finished inner loop
makes the engine return success. -/
theorem C1_last_block_exact_equality
    (hdr : FWHeader) (payload : List Nat) (seq r : Nat) (hr : r ≠ 0)
    (bs : List Nat) (events : List XferResult) (sync : FWSyncHeader) (tl : List Nat)
    (hdec : decodeFWSyncHeader (recvBuffer FW_DNLD_RX_BUF_SIZE bs) = some (sync, tl))
    (hcmd : sync.cmd = 0) (hseq : sync.seq_num = seq) :
    ((innerLoop hdr payload seq r (XferResult.ack bs :: events)).1 =
      if hdr.dnld_cmd = FW_HAS_LAST_BLOCK then InnerResult.done
      else InnerResult.brk events) ∧
    (∀ fw rest data_buf rest2 evs t,
      decodeFWHeader fw = some (hdr, rest) →
      readExactList (effectiveDataLen hdr) rest = some (data_buf, rest2) →
      innerLoop hdr data_buf seq r evs = (InnerResult.done, t) →
      outerLoop fw seq r evs = (Except.ok (), t)) := by
  constructor
  · rw [innerLoop_ack hdr payload seq r hr bs events sync tl hdec,
      if_neg (by omega), if_neg (by simp [hseq])]
    by_cases hL : hdr.dnld_cmd = FW_HAS_LAST_BLOCK <;> simp [hL]
  · intro fw rest data_buf rest2 evs t hh hp hi
    exact outerLoop_inner_done fw seq r evs hdr rest data_buf rest2 t hr hh hp hi

theorem C1_witness :
    (innerLoop ⟨4, 0, 0, 0⟩ [] 0 3 [XferResult.ack []]).1 = InnerResult.done ∧
    (innerLoop ⟨12, 0, 0, 0⟩ [] 0 3 [XferResult.ack []]).1 = InnerResult.brk [] ∧
    outerLoop [4, 0, 0, 0, 0, 0, 0, 0, 0, 0, 0, 0, 0, 0, 0, 0] 0 3 [XferResult.ack []] =
      (Except.ok (), [[4, 0, 0, 0, 0, 0, 0, 0, 0, 0, 0, 0, 0, 0, 0, 0, 0, 0, 0, 0]]) := by
  have h4 := C1_last_block_exact_equality ⟨4, 0, 0, 0⟩ [] 0 3 (by decide) [] []
    ⟨0, 0⟩ (List.replicate 2040 0) decodeSync_recvZero rfl rfl
  have h12 := C1_last_block_exact_equality ⟨12, 0, 0, 0⟩ [] 0 3 (by decide) [] []
    ⟨0, 0⟩ (List.replicate 2040 0) decodeSync_recvZero rfl rfl
  refine ⟨by simpa [FW_HAS_LAST_BLOCK] using h4.1, by simpa [FW_HAS_LAST_BLOCK] using h12.1, ?_⟩
  exact h4.2 [4, 0, 0, 0, 0, 0, 0, 0, 0, 0, 0, 0, 0, 0, 0, 0] [] [] [] [XferResult.ack []]
    [[4, 0, 0, 0, 0, 0, 0, 0, 0, 0, 0, 0, 0, 0, 0, 0, 0, 0, 0, 0]]
    (by decide) (by decide) (by decide)

/-- Claim C2: the retry budget is one counter shared by send and receive
failures of a block; each transport failure transmits the block, decrements
the budget by one and retries the same block; three consecutive failures
starting from the full budget exhaust it, which fails the whole transfer
with exhaustedRetries; and an accepted non-final block continues with the
next record with the budget reset to MAX_FW_RETRY. -/
theorem C2_retry_budget :
    (∀ (hdr : FWHeader) (payload : List Nat) (seq r : Nat) (e : XferResult)
      (events : List XferResult), e.isFail = true →
      innerLoop hdr payload seq (r + 1) (e :: events) =
        ((innerLoop hdr payload seq r events).1,
          (encodeFWData ⟨hdr, seq⟩ ++ payload) :: (innerLoop hdr payload seq r events).2)) ∧
    (∀ (hdr : FWHeader) (payload : List Nat) (seq : Nat) (e1 e2 e3 : XferResult)
      (events : List XferResult),
      e1.isFail = true → e2.isFail = true → e3.isFail = true →
      innerLoop hdr payload seq MAX_FW_RETRY (e1 :: e2 :: e3 :: events) =
        (InnerResult.exhausted events,
          [encodeFWData ⟨hdr, seq⟩ ++ payload, encodeFWData ⟨hdr, seq⟩ ++ payload,
            encodeFWData ⟨hdr, seq⟩ ++ payload])) ∧
    (∀ (fw : List Nat) (seq r : Nat) (events : List XferResult) (hdr : FWHeader)
      (rest data_buf rest2 : List Nat) (events2 : List XferResult) (t : List (List Nat)),
      r ≠ 0 →
      decodeFWHeader fw = some (hdr, rest) →
      readExactList (effectiveDataLen hdr) rest = some (data_buf, rest2) →
      innerLoop hdr data_buf seq r events = (InnerResult.exhausted events2, t) →
      outerLoop fw seq r events = (Except.error FwError.exhaustedRetries, t)) ∧
    (∀ (fw : List Nat) (seq r : Nat) (events : List XferResult) (hdr : FWHeader)
      (rest data_buf rest2 : List Nat) (events2 : List XferResult) (t : List (List Nat)),
      r ≠ 0 →
      decodeFWHeader fw = some (hdr, rest) →
      readExactList (effectiveDataLen hdr) rest = some (data_buf, rest2) →
      innerLoop hdr data_buf seq r events = (InnerResult.brk events2, t) →
      outerLoop fw seq r events =
        ((outerLoop rest2 (seq + 1) MAX_FW_RETRY events2).1,
          t ++ (outerLoop rest2 (seq + 1) MAX_FW_RETRY events2).2)) := by
  refine ⟨innerLoop_fail_step, ?_, ?_, ?_⟩
  · intro hdr payload seq e1 e2 e3 events h1 h2 h3
    rw [show (MAX_FW_RETRY : Nat) = 2 + 1 from rfl,
      innerLoop_fail_step hdr payload seq 2 e1 _ h1,
      show (2 : Nat) = 1 + 1 from rfl,
      innerLoop_fail_step hdr payload seq 1 e2 _ h2,
      show (1 : Nat) = 0 + 1 from rfl,
      innerLoop_fail_step hdr payload seq 0 e3 _ h3]
    have h0 : innerLoop hdr payload seq 0 events = (InnerResult.exhausted events, []) := by
      rw [innerLoop.eq_def]
      simp
    rw [h0]
  · intro fw seq r events hdr rest data_buf rest2 events2 t hr hh hp hi
    exact outerLoop_inner_exhausted fw seq r events hdr rest data_buf rest2 events2 t hr hh hp hi
  · intro fw seq r events hdr rest data_buf rest2 events2 t hr hh hp hi
    exact outerLoop_inner_brk fw seq r events hdr rest data_buf rest2 events2 t hr hh hp hi

theorem C2_witness :
    innerLoop ⟨1, 0, 0, 0⟩ [] 0 3
        [XferResult.sendFail, XferResult.recvFail, XferResult.sendFail, XferResult.ack []] =
      (InnerResult.exhausted [XferResult.ack []],
        [encodeFWData ⟨⟨1, 0, 0, 0⟩, 0⟩ ++ [], encodeFWData ⟨⟨1, 0, 0, 0⟩, 0⟩ ++ [],
          encodeFWData ⟨⟨1, 0, 0, 0⟩, 0⟩ ++ []]) ∧
    outerLoop [1, 0, 0, 0, 0, 0, 0, 0, 0, 0, 0, 0, 0, 0, 0, 0] 0 3
        [XferResult.sendFail, XferResult.sendFail, XferResult.sendFail] =
      (Except.error FwError.exhaustedRetries,
        [encodeFWData ⟨⟨1, 0, 0, 0⟩, 0⟩, encodeFWData ⟨⟨1, 0, 0, 0⟩, 0⟩,
          encodeFWData ⟨⟨1, 0, 0, 0⟩, 0⟩]) := by
  constructor
  · exact C2_retry_budget.2.1 ⟨1, 0, 0, 0⟩ [] 0 XferResult.sendFail XferResult.recvFail
      XferResult.sendFail [XferResult.ack []] rfl rfl rfl
  · exact C2_retry_budget.2.2.1 [1, 0, 0, 0, 0, 0, 0, 0, 0, 0, 0, 0, 0, 0, 0, 0] 0 3
      [XferResult.sendFail, XferResult.sendFail, XferResult.sendFail] ⟨1, 0, 0, 0⟩ [] [] [] []
      [encodeFWData ⟨⟨1, 0, 0, 0⟩, 0⟩, encodeFWData ⟨⟨1, 0, 0, 0⟩, 0⟩,
        encodeFWData ⟨⟨1, 0, 0, 0⟩, 0⟩]
      (by decide) (by decide) (by decide) (by decide)

/-- Claim C3: a decoded ack with a positive status command aborts the whole
transfer at once with the device CRC error, whatever the echoed sequence is
(the CRC check comes first); with status 0, a mismatching echoed sequence
aborts at once with the sequence mismatch error; both aborts happen with
retry budget remaining and propagate out of the engine with no further
block transmitted. -/
theorem C3_fatal_ack_classification
    (hdr : FWHeader) (payload : List Nat) (seq r : Nat) (hr : r ≠ 0)
    (bs : List Nat) (events : List XferResult) (sync : FWSyncHeader) (tl : List Nat)
    (hdec : decodeFWSyncHeader (recvBuffer FW_DNLD_RX_BUF_SIZE bs) = some (sync, tl)) :
    (0 < sync.cmd →
      innerLoop hdr payload seq r (XferResult.ack bs :: events) =
        (InnerResult.fatal FwError.deviceCrc, [encodeFWData ⟨hdr, seq⟩ ++ payload])) ∧
    (sync.cmd = 0 → sync.seq_num ≠ seq →
      innerLoop hdr payload seq r (XferResult.ack bs :: events) =
        (InnerResult.fatal (FwError.seqMismatch sync.seq_num seq),
          [encodeFWData ⟨hdr, seq⟩ ++ payload])) ∧
    (∀ (fw rest data_buf rest2 : List Nat) (evs : List XferResult) (e : FwError)
      (t : List (List Nat)),
      decodeFWHeader fw = some (hdr, rest) →
      readExactList (effectiveDataLen hdr) rest = some (data_buf, rest2) →
      innerLoop hdr data_buf seq r evs = (InnerResult.fatal e, t) →
      outerLoop fw seq r evs = (Except.error e, t)) := by
  refine ⟨?_, ?_, ?_⟩
  · intro hcmd
    rw [innerLoop_ack hdr payload seq r hr bs events sync tl hdec, if_pos hcmd]
  · intro hcmd hne
    rw [innerLoop_ack hdr payload seq r hr bs events sync tl hdec,
      if_neg (by omega), if_pos hne]
  · intro fw rest data_buf rest2 evs e t hh hp hi
    exact outerLoop_inner_fatal fw seq r evs hdr rest data_buf rest2 e t hr hh hp hi

theorem C3_witness :
    innerLoop ⟨1, 0, 0, 0⟩ [] 0 3 [XferResult.ack (encodeFWSyncHeader ⟨1, 0⟩)] =
      (InnerResult.fatal FwError.deviceCrc, [encodeFWData ⟨⟨1, 0, 0, 0⟩, 0⟩ ++ []]) ∧
    innerLoop ⟨1, 0, 0, 0⟩ [] 0 3 [XferResult.ack (encodeFWSyncHeader ⟨0, 5⟩)] =
      (InnerResult.fatal (FwError.seqMismatch 5 0), [encodeFWData ⟨⟨1, 0, 0, 0⟩, 0⟩ ++ []]) ∧
    outerLoop [1, 0, 0, 0, 0, 0, 0, 0, 0, 0, 0, 0, 0, 0, 0, 0] 0 3
        [XferResult.ack (encodeFWSyncHeader ⟨1, 0⟩)] =
      (Except.error FwError.deviceCrc, [encodeFWData ⟨⟨1, 0, 0, 0⟩, 0⟩ ++ []]) := by
  have hc := C3_fatal_ack_classification ⟨1, 0, 0, 0⟩ [] 0 3 (by decide)
    (encodeFWSyncHeader ⟨1, 0⟩) [] ⟨1, 0⟩ (List.replicate 2040 0)
    (decodeSync_recv ⟨1, 0⟩ (by decide))
  have hs := C3_fatal_ack_classification ⟨1, 0, 0, 0⟩ [] 0 3 (by decide)
    (encodeFWSyncHeader ⟨0, 5⟩) [] ⟨0, 5⟩ (List.replicate 2040 0)
    (decodeSync_recv ⟨0, 5⟩ (by decide))
  refine ⟨hc.1 (by decide), hs.2.1 rfl (by decide), ?_⟩
  exact hc.2.2 [1, 0, 0, 0, 0, 0, 0, 0, 0, 0, 0, 0, 0, 0, 0, 0] [] [] []
    [XferResult.ack (encodeFWSyncHeader ⟨1, 0⟩)] FwError.deviceCrc
    [encodeFWData ⟨⟨1, 0, 0, 0⟩, 0⟩ ++ []] (by decide) (by decide) (hc.1 (by decide))

/-- Claim C4: the engine starts the sequence number at 0; every buffer
transmitted for a block - the first attempt and every retransmission -
carries the encoded header with that block's sequence number and payload,
so retries never change the sequence on the wire; and an accepted non-final
block advances the sequence by exactly one for the next record. -/
theorem C4_sequence_numbering (fw : List Nat) (events : List XferResult) :
    program_fw fw events = (outerLoop fw 0 MAX_FW_RETRY events).1 ∧
    (∀ (hdr : FWHeader) (payload : List Nat) (seq r : Nat) (evs : List XferResult)
      (b : List Nat), b ∈ (innerLoop hdr payload seq r evs).2 →
      b = encodeFWData ⟨hdr, seq⟩ ++ payload) ∧
    (∀ (seq r : Nat) (evs : List XferResult) (hdr : FWHeader)
      (rest data_buf rest2 : List Nat) (events2 : List XferResult) (t : List (List Nat)),
      r ≠ 0 →
      decodeFWHeader fw = some (hdr, rest) →
      readExactList (effectiveDataLen hdr) rest = some (data_buf, rest2) →
      innerLoop hdr data_buf seq r evs = (InnerResult.brk events2, t) →
      (outerLoop fw seq r evs).1 = (outerLoop rest2 (seq + 1) MAX_FW_RETRY events2).1) := by
  refine ⟨rfl, ?_, ?_⟩
  · intro hdr payload seq r evs b hb
    exact innerLoop_sent hdr payload seq evs r b hb
  · intro seq r evs hdr rest data_buf rest2 events2 t hr hh hp hi
    rw [outerLoop_inner_brk fw seq r evs hdr rest data_buf rest2 events2 t hr hh hp hi]

theorem C4_witness :
    program_fw [] [] = (outerLoop [] 0 MAX_FW_RETRY []).1 ∧
    (outerLoop [1, 0, 0, 0, 0, 0, 0, 0, 1, 0, 0, 0, 0, 0, 0, 0, 170] 0 3
      [XferResult.ack []]).1 = (outerLoop [] 1 3 []).1 := by
  refine ⟨(C4_sequence_numbering [] []).1, ?_⟩
  exact (C4_sequence_numbering [1, 0, 0, 0, 0, 0, 0, 0, 1, 0, 0, 0, 0, 0, 0, 0, 170]
      [XferResult.ack []]).2.2 0 3 [XferResult.ack []] ⟨1, 0, 1, 0⟩ [170] [170] [] []
    [encodeFWData ⟨⟨1, 0, 1, 0⟩, 0⟩ ++ [170]] (by decide) (by decide) (by decide) (by decide)

/-- Claim C5: a record whose download command equals the CMD7 value 7 has
effective payload length 0 whatever data_length encodes, so reading its
payload consumes no image bytes (the cursor stays put) and every buffer
transmitted for it is exactly the 20-byte encoded header plus sequence
number, with no payload bytes. -/
theorem C5_cmd7_no_payload (hdr : FWHeader) (h7 : hdr.dnld_cmd = FW_CMD_7) :
    effectiveDataLen hdr = 0 ∧
    (∀ rest : List Nat, readExactList (effectiveDataLen hdr) rest = some ([], rest)) ∧
    (∀ (seq r : Nat) (evs : List XferResult) (b : List Nat),
      b ∈ (innerLoop hdr [] seq r evs).2 →
      b = encodeFWData ⟨hdr, seq⟩ ∧ b.length = 20) := by
  have he : effectiveDataLen hdr = 0 := by simp [effectiveDataLen, h7]
  refine ⟨he, ?_, ?_⟩
  · intro rest
    simp [he, readExactList]
  · intro seq r evs b hb
    have hbv := innerLoop_sent hdr [] seq evs r b hb
    rw [List.append_nil] at hbv
    exact ⟨hbv, by rw [hbv, encodeFWData_length]⟩

theorem C5_witness :
    effectiveDataLen ⟨7, 0, 5, 0⟩ = 0 ∧
    readExactList (effectiveDataLen ⟨7, 0, 5, 0⟩) [1, 2] = some ([], [1, 2]) ∧
    (encodeFWData ⟨⟨7, 0, 5, 0⟩, 0⟩ = encodeFWData ⟨⟨7, 0, 5, 0⟩, 0⟩ ∧
      (encodeFWData ⟨⟨7, 0, 5, 0⟩, 0⟩).length = 20) := by
  have h := C5_cmd7_no_payload ⟨7, 0, 5, 0⟩ (by decide)
  exact ⟨h.1, h.2.1 [1, 2],
    h.2.2 0 3 [XferResult.sendFail] (encodeFWData ⟨⟨7, 0, 5, 0⟩, 0⟩) (by decide)⟩

/-- Claim C6: when the image has fewer than the 16 bytes of a header, or
fewer remaining bytes than the header's effective payload length, the
transfer fails at once with the truncated-image error and transmits nothing
for the incomplete record. -/
theorem C6_truncated_image (fw : List Nat) (seq r : Nat) (events : List XferResult)
    (hr : r ≠ 0) :
    (fw.length < 16 →
      outerLoop fw seq r events = (Except.error FwError.truncatedImage, [])) ∧
    (∀ (hdr : FWHeader) (rest : List Nat),
      decodeFWHeader fw = some (hdr, rest) → rest.length < effectiveDataLen hdr →
      outerLoop fw seq r events = (Except.error FwError.truncatedImage, [])) := by
  constructor
  · intro hlen
    have hnone : decodeFWHeader fw = none := by
      cases hd : decodeFWHeader fw with
      | none => rfl
      | some p =>
        obtain ⟨hdr, rest⟩ := p
        have := decodeFWHeader_length hd
        omega
    exact outerLoop_header_none fw seq r events hr hnone
  · intro hdr rest hh hlt
    have hpnone : readExactList (effectiveDataLen hdr) rest = none := by
      rw [readExactList, if_neg (by omega)]
    exact outerLoop_payload_none fw seq r events hdr rest hr hh hpnone

theorem C6_witness :
    outerLoop [1, 2, 3] 0 3 [] = (Except.error FwError.truncatedImage, []) ∧
    outerLoop [1, 0, 0, 0, 0, 0, 0, 0, 5, 0, 0, 0, 0, 0, 0, 0] 0 3 [] =
      (Except.error FwError.truncatedImage, []) := by
  refine ⟨(C6_truncated_image [1, 2, 3] 0 3 [] (by decide)).1 (by decide), ?_⟩
  exact (C6_truncated_image [1, 0, 0, 0, 0, 0, 0, 0, 5, 0, 0, 0, 0, 0, 0, 0] 0 3 []
    (by decide)).2 ⟨1, 0, 5, 0⟩ [] (by decide) (by decide)

/-- Claim C7 counterexample: a transport failure during the chip revision
probe gates the transfer after all - download_fw propagates the probe error
and never runs program_fw, even on an image and oracle for which the
transfer itself would succeed. -/
theorem C7_counterexample :
    download_fw false none [4, 0, 0, 0, 0, 0, 0, 0, 0, 0, 0, 0, 0, 0, 0, 0]
        [XferResult.ack []] = Except.error FwError.transport ∧
    program_fw [4, 0, 0, 0, 0, 0, 0, 0, 0, 0, 0, 0, 0, 0, 0, 0] [XferResult.ack []] =
      Except.ok () ∧
    download_fw false none [4, 0, 0, 0, 0, 0, 0, 0, 0, 0, 0, 0, 0, 0, 0, 0]
        [XferResult.ack []] ≠
      program_fw [4, 0, 0, 0, 0, 0, 0, 0, 0, 0, 0, 0, 0, 0, 0, 0] [XferResult.ack []] := by
  have hp : program_fw [4, 0, 0, 0, 0, 0, 0, 0, 0, 0, 0, 0, 0, 0, 0, 0]
      [XferResult.ack []] = Except.ok () := by
    have ho := outerLoop_inner_done [4, 0, 0, 0, 0, 0, 0, 0, 0, 0, 0, 0, 0, 0, 0, 0]
      0 MAX_FW_RETRY [XferResult.ack []] ⟨4, 0, 0, 0⟩ [] [] []
      [[4, 0, 0, 0, 0, 0, 0, 0, 0, 0, 0, 0, 0, 0, 0, 0, 0, 0, 0, 0]]
      (by decide) (by decide) (by decide) (by decide)
    unfold program_fw
    rw [ho]
  refine ⟨rfl, hp, ?_⟩
  rw [hp, show download_fw false none [4, 0, 0, 0, 0, 0, 0, 0, 0, 0, 0, 0, 0, 0, 0, 0]
    [XferResult.ack []] = Except.error FwError.transport from rfl]
  simp

/-- Claim C7 (amended): only the decoded outcome of the probe is
informational - whenever the probe transport succeeds, check_chip_rev
returns Ok whatever bytes came back (a decode of the 2048-byte buffer
cannot fail), and download_fw proceeds to the transfer unconditionally; a
transport failure during the probe, however, aborts before any block is
sent. -/
theorem C7_probe_never_gates (bs fw : List Nat) (events : List XferResult) :
    (∃ rev, check_chip_rev true (some bs) = Except.ok rev) ∧
    download_fw true (some bs) fw events = program_fw fw events := by
  obtain ⟨pkt, tl, hd⟩ := @decodeUsbAckPkt_total (recvBuffer CHIP_REV_RX_BUF_SIZE bs)
    (by rw [recvBuffer_length]; decide)
  have hc : check_chip_rev true (some bs) = Except.ok (reportedChipRev pkt) := by
    simp [check_chip_rev, hd]
  exact ⟨⟨reportedChipRev pkt, hc⟩, by simp [download_fw, hc]⟩

/-- Claim C8: the expected extend magic is 0xAB950001, built from the high
and low words 0xAB95 and 0x0001; a successfully read probe response is
reported as its chip_rev field exactly when its extend field equals that
constant, and as the USB8797_A0 default otherwise, never as the response's
chip_rev. -/
theorem C8_chip_revision_reporting (bs : List Nat) (pkt : UsbAckPkt) (tl : List Nat)
    (hdec : decodeUsbAckPkt (recvBuffer CHIP_REV_RX_BUF_SIZE bs) = some (pkt, tl)) :
    expected_extend = 0xAB950001 ∧
    check_chip_rev true (some bs) = Except.ok (reportedChipRev pkt) ∧
    (pkt.extend ≠ expected_extend → reportedChipRev pkt = USB8797_A0) ∧
    (pkt.extend = expected_extend → reportedChipRev pkt = pkt.chip_rev) := by
  refine ⟨by decide, ?_, ?_, ?_⟩
  · simp [check_chip_rev, hdec]
  · intro hne
    simp [reportedChipRev, hne]
  · intro heq
    simp [reportedChipRev, heq]

theorem C8_witness :
    check_chip_rev true (some (encodeUsbAckPkt ⟨0, 0, 0, 9⟩)) = Except.ok USB8797_A0 ∧
    check_chip_rev true (some (encodeUsbAckPkt ⟨0, 0, 0xAB950001, 9⟩)) = Except.ok 9 := by
  have h1 := C8_chip_revision_reporting (encodeUsbAckPkt ⟨0, 0, 0, 9⟩) ⟨0, 0, 0, 9⟩
    (List.replicate 2032 0) (decodeAck_recv ⟨0, 0, 0, 9⟩ (by decide))
  have h2 := C8_chip_revision_reporting (encodeUsbAckPkt ⟨0, 0, 0xAB950001, 9⟩)
    ⟨0, 0, 0xAB950001, 9⟩ (List.replicate 2032 0)
    (decodeAck_recv ⟨0, 0, 0xAB950001, 9⟩ (by decide))
  constructor
  · rw [h1.2.1, h1.2.2.1 (by decide)]
  · rw [h2.2.1, h2.2.2.2 (by decide)]

/-- Claim C9: for each of the four wire structures, decoding the
little-endian fixed-width encoding of any value gives that value back with
no bytes left over. -/
theorem C9_codec_roundtrip (fh : FWHeader) (fd : FWData) (sh : FWSyncHeader)
    (pk : UsbAckPkt) (h1 : fh.wf) (h2 : fd.wf) (h3 : sh.wf) (h4 : pk.wf) :
    decodeFWHeader (encodeFWHeader fh) = some (fh, []) ∧
    decodeFWData (encodeFWData fd) = some (fd, []) ∧
    decodeFWSyncHeader (encodeFWSyncHeader sh) = some (sh, []) ∧
    decodeUsbAckPkt (encodeUsbAckPkt pk) = some (pk, []) := by
  have e1 := encodeFWHeader_decode fh [] h1
  have e2 := encodeFWData_decode fd [] h2
  have e3 := encodeFWSyncHeader_decode sh [] h3
  have e4 := encodeUsbAckPkt_decode pk [] h4
  rw [List.append_nil] at e1 e2 e3 e4
  exact ⟨e1, e2, e3, e4⟩

theorem C9_witness :
    decodeFWHeader (encodeFWHeader ⟨1, 2, 3, 4⟩) = some (⟨1, 2, 3, 4⟩, []) ∧
    decodeFWData (encodeFWData ⟨⟨1, 2, 3, 4⟩, 5⟩) = some (⟨⟨1, 2, 3, 4⟩, 5⟩, []) ∧
    decodeFWSyncHeader (encodeFWSyncHeader ⟨6, 7⟩) = some (⟨6, 7⟩, []) ∧
    decodeUsbAckPkt (encodeUsbAckPkt ⟨8, 9, 10, 11⟩) = some (⟨8, 9, 10, 11⟩, []) :=
  C9_codec_roundtrip ⟨1, 2, 3, 4⟩ ⟨⟨1, 2, 3, 4⟩, 5⟩ ⟨6, 7⟩ ⟨8, 9, 10, 11⟩
    (by decide) (by decide) (by decide) (by decide)

/-- Claim C10: a transport-successful ack read decodes from the whole
zero-initialized 2048-byte buffer, so decoding can never fail there; a read
that returned zero bytes decodes as the all-zero sync header, which is
accepted for the block with sequence 0 (finishing or advancing per the
last-block test) and is a fatal sequence mismatch for every block with a
nonzero sequence. -/
theorem C10_full_buffer_decode (bs : List Nat) (hdr : FWHeader) (payload : List Nat)
    (r : Nat) (hr : r ≠ 0) (events : List XferResult) :
    (∃ sync tl, decodeFWSyncHeader (recvBuffer FW_DNLD_RX_BUF_SIZE bs) = some (sync, tl)) ∧
    decodeFWSyncHeader (recvBuffer FW_DNLD_RX_BUF_SIZE []) =
      some (⟨0, 0⟩, List.replicate 2040 0) ∧
    ((innerLoop hdr payload 0 r (XferResult.ack [] :: events)).1 =
      if hdr.dnld_cmd = FW_HAS_LAST_BLOCK then InnerResult.done
      else InnerResult.brk events) ∧
    (∀ seq : Nat, seq ≠ 0 →
      (innerLoop hdr payload seq r (XferResult.ack [] :: events)).1 =
        InnerResult.fatal (FwError.seqMismatch 0 seq)) := by
  refine ⟨decodeFWSyncHeader_total (by rw [recvBuffer_length]; decide),
    decodeSync_recvZero, ?_, ?_⟩
  · rw [innerLoop_ack hdr payload 0 r hr [] events ⟨0, 0⟩ (List.replicate 2040 0)
      decodeSync_recvZero, if_neg (by decide), if_neg (by decide)]
    by_cases hL : hdr.dnld_cmd = FW_HAS_LAST_BLOCK <;> simp [hL]
  · intro seq hseq
    rw [innerLoop_ack hdr payload seq r hr [] events ⟨0, 0⟩ (List.replicate 2040 0)
      decodeSync_recvZero, if_neg (by decide), if_pos (by simpa using Ne.symm hseq)]

theorem C10_witness :
    (∃ sync tl, decodeFWSyncHeader (recvBuffer FW_DNLD_RX_BUF_SIZE [1, 2, 3]) =
      some (sync, tl)) ∧
    (innerLoop ⟨9, 0, 0, 0⟩ [] 0 3 [XferResult.ack []]).1 = InnerResult.brk [] ∧
    (innerLoop ⟨9, 0, 0, 0⟩ [] 7 3 [XferResult.ack []]).1 =
      InnerResult.fatal (FwError.seqMismatch 0 7) := by
  have h := C10_full_buffer_decode [1, 2, 3] ⟨9, 0, 0, 0⟩ [] 3 (by decide) []
  exact ⟨h.1, by simpa [FW_HAS_LAST_BLOCK] using h.2.2.1, h.2.2.2 7 (by decide)⟩

end MarvellFw
